import Mathlib

/-!
Verification of the std-reference-cosmwasm-basic contract (`src/contract.rs`).

The contract keeps a store mapping symbols to rate records, accepts batched
rate updates (`update_refs`), and answers cross-rate queries
(`query` / `get_ref_data`).  We embed the contract shallowly: the persisted
`State` is passed explicitly, Rust `u64` values become `Nat` (the only
arithmetic the contract performs on them is in `BigUint`, i.e. unbounded,
so no wraparound occurs anywhere), the Rust `HashMap` becomes a function
`String → Option RefData`, and a Rust panic (an `.unwrap()` on `None`/`Err`,
or a `BigUint` division by zero) is a distinct `trap` outcome.
-/

namespace StdReference

/-- Outcome of running a contract function: `ok` / `err` mirror Rust's
`Result`, `trap` models a Rust panic (`unwrap` on `None` or `Err`, or a
`BigUint` division by zero). -/
inductive RunResult (ε α : Type) where
  | ok : α → RunResult ε α
  | err : ε → RunResult ε α
  | trap : RunResult ε α
  deriving DecidableEq, Repr

/-- Error enum of the contract.  `error.rs` is not part of the sources, but
`contract.rs` constructs exactly these two variants
(`ContractError::DifferentArrayLength` at the batch-length check and
`ContractError::RefDataNotAvailable` at the resolve-time check); the spec
refers to the first as `MismatchedBatchLength`. -/
inductive ContractError where
  | DifferentArrayLength
  | RefDataNotAvailable
  deriving DecidableEq, Repr

/-- `RefData` from `state.rs` (fields as used in `contract.rs`): the stored
record of one symbol, all three fields `u64` in the source. -/
structure RefData where
  rate : Nat
  resolve_time : Nat
  request_id : Nat
  deriving DecidableEq, Repr

/-- `State` from `state.rs`: the persisted contract state, a `HashMap` from
symbol to `RefData`, embedded as a lookup function. -/
structure State where
  refs : String → Option RefData

/-- `RefDataResponse`: one resolved `(rate, last_update)` pair, both `BigUint`
in the source. -/
structure RefDataResponse where
  rate : Nat
  last_update : Nat
  deriving DecidableEq, Repr

/-- `ReferenceData`: the answer of a `GetReferenceData` query, all three
fields `BigUint` in the source. -/
structure ReferenceData where
  rate : Nat
  last_updated_base : Nat
  last_updated_quote : Nat
  deriving DecidableEq, Repr

/-- `ExecuteMsg`: the single execute message `Relay`. -/
inductive ExecuteMsg where
  | Relay (symbols : List String) (rates : List Nat)
      (resolve_times : List Nat) (request_ids : List Nat)

/-- `QueryMsg`: the two query messages. -/
inductive QueryMsg where
  | GetRefs
  | GetReferenceData (base quote : String)

/-- Payload of a successful query, before serialization (`to_binary` is
host glue and out of scope). -/
inductive QueryAnswer where
  | refs (state : State)
  | refData (d : ReferenceData)

/-- `instantiate`: saves `State { refs: HashMap::new() }`, i.e. the empty
store. -/
def instantiate : State := { refs := fun _ => none }

/-- `HashMap::insert`: point update of the lookup function. -/
def insertRef (refs : String → Option RefData) (k : String) (v : RefData) :
    String → Option RefData :=
  fun k' => if k' = k then some v else refs k'

/-- The loop body of `update_refs`, folded over a list of
`(symbol, record)` pairs in index order. -/
def insertAll (refs : String → Option RefData)
    (l : List (String × RefData)) : String → Option RefData :=
  l.foldl (fun r p => insertRef r p.1 p.2) refs

/-- The `(symbols[idx], RefData { rates[idx], resolve_times[idx],
request_ids[idx] })` pairs of the loop in `update_refs`, in index order;
the four lists have equal length whenever this is used. -/
def mkRecords : List String → List Nat → List Nat → List Nat →
    List (String × RefData)
  | s :: ss, r :: rs, t :: ts, q :: qs =>
      (s, ⟨r, t, q⟩) :: mkRecords ss rs ts qs
  | _, _, _, _ => []

/-- `update_refs` from `contract.rs`: checks the four array lengths, then
loads the state, inserts every record in index order, and saves.  The
returned pair is (storage after the call, the function's `Result`); on the
length-check failure the function returns before any load or save, so the
storage component is the unchanged input. -/
def update_refs (storage : State) (symbols : List String)
    (new_rates new_resolve_times new_request_ids : List Nat) :
    State × Except ContractError Unit :=
  let len := symbols.length
  if new_rates.length ≠ len ∨ new_request_ids.length ≠ len ∨
      new_resolve_times.length ≠ len then
    (storage, .error .DifferentArrayLength)
  else
    let state : State :=
      { refs := insertAll storage.refs
          (mkRecords symbols new_rates new_resolve_times new_request_ids) }
    (state, .ok ())

/-- `execute`: dispatches `ExecuteMsg::Relay` to `update_refs`. -/
def execute (storage : State) (msg : ExecuteMsg) :
    State × Except ContractError Unit :=
  match msg with
  | .Relay symbols rates resolve_times request_ids =>
      update_refs storage symbols rates resolve_times request_ids

/-- `get_ref_data` from `contract.rs`.  `env_time` is
`env.block.time.nanos()`.  For `"USD"` it returns the fixed pair
`(10^9, env_time)` without reading the store; otherwise it looks the symbol
up and calls `.unwrap()` on the `Option` — a panic (`trap`) when the symbol
is absent — then errs with `RefDataNotAvailable` when
`resolve_time <= 0`. -/
def get_ref_data (storage : State) (env_time : Nat) (symbol : String) :
    RunResult ContractError RefDataResponse :=
  if symbol = "USD" then
    .ok { rate := 10 ^ 9, last_update := env_time }
  else
    match storage.refs symbol with
    | none => .trap
    | some ref_data =>
        if ref_data.resolve_time ≤ 0 then
          .err .RefDataNotAvailable
        else
          .ok { rate := ref_data.rate, last_update := ref_data.resolve_time }

/-- `query_refs`: returns the loaded state wholesale. -/
def query_refs (storage : State) : State := storage

/-- `query` from `contract.rs`.  The `GetReferenceData` arm calls
`get_ref_data` for base and quote and `.unwrap()`s both results, so any
error or panic below becomes a panic (`trap`); the rate is computed in
`BigUint` as `base.rate * 10^18 / quote.rate` (truncating division), which
panics when `quote.rate = 0` since `BigUint` division by zero panics. -/
def query (storage : State) (env_time : Nat) (msg : QueryMsg) :
    RunResult ContractError QueryAnswer :=
  match msg with
  | .GetRefs => .ok (.refs (query_refs storage))
  | .GetReferenceData base quote =>
      match get_ref_data storage env_time base with
      | .ok base_ref_data =>
          match get_ref_data storage env_time quote with
          | .ok quote_ref_data =>
              if quote_ref_data.rate = 0 then .trap
              else
                .ok (.refData
                  { rate := base_ref_data.rate * 10 ^ 18 / quote_ref_data.rate,
                    last_updated_base := base_ref_data.last_update,
                    last_updated_quote := quote_ref_data.last_update })
          | _ => .trap
      | _ => .trap

/-- The last record for a key in a batch's `(symbol, record)` list: later
list entries take precedence, mirroring that later loop iterations of
`update_refs` overwrite earlier inserts of the same key. -/
def findLast : List (String × RefData) → String → Option RefData
  | [], _ => none
  | p :: t, k =>
      match findLast t k with
      | some v => some v
      | none => if k = p.1 then some p.2 else none

/-- The store of the spec's concrete scenario (and of the source test
`query_test_valid`): the batch `symbols=["MATIC"], rates=[112],
resolve_times=[1625108298000000000], request_ids=[124]` applied to the
empty store. -/
def matic_store : State :=
  (update_refs instantiate ["MATIC"] [112] [1625108298000000000] [124]).1

/-- A store holding one symbol whose stored rate is `0` but whose
`resolve_time` is positive, so it resolves successfully to rate `0`. -/
def zero_rate_store : State :=
  (update_refs instantiate ["ZRO"] [0] [1] [7]).1

/-- A store holding one symbol whose `resolve_time` is `0`
(never resolved). -/
def unresolved_store : State :=
  (update_refs instantiate ["ETH"] [5] [0] [9]).1

lemma insertAll_cons (refs : String → Option RefData) (p : String × RefData)
    (t : List (String × RefData)) :
    insertAll refs (p :: t) = insertAll (insertRef refs p.1 p.2) t := rfl

/-- Point lookup after the insert loop: the last occurrence of the key in
the batch wins, and a key not in the batch reads the prior store. -/
lemma insertAll_lookup (l : List (String × RefData)) :
    ∀ (refs : String → Option RefData) (k : String),
      insertAll refs l k =
        match findLast l k with
        | some v => some v
        | none => refs k := by
  induction l with
  | nil => intro refs k; rfl
  | cons p t ih =>
    intro refs k
    rw [insertAll_cons, ih]
    cases h : findLast t k with
    | some v => simp [findLast, h]
    | none =>
      by_cases hk : k = p.1
      · subst hk; simp [findLast, h, insertRef]
      · simp [findLast, h, hk, insertRef]

lemma fst_mem_of_mem_mkRecords :
    ∀ (ss : List String) (rs ts qs : List Nat) (p : String × RefData),
      p ∈ mkRecords ss rs ts qs → p.1 ∈ ss := by
  intro ss
  induction ss with
  | nil => intro rs ts qs p hp; simp [mkRecords] at hp
  | cons s ss ih =>
    intro rs ts qs p hp
    cases rs with
    | nil => simp [mkRecords] at hp
    | cons r rs =>
      cases ts with
      | nil => simp [mkRecords] at hp
      | cons t ts =>
        cases qs with
        | nil => simp [mkRecords] at hp
        | cons q qs =>
          simp only [mkRecords, List.mem_cons] at hp
          rcases hp with hp | hp
          · subst hp; simp
          · exact List.mem_cons_of_mem _ (ih rs ts qs p hp)

lemma findLast_eq_none (l : List (String × RefData)) (k : String)
    (h : ∀ p ∈ l, p.1 ≠ k) : findLast l k = none := by
  induction l with
  | nil => rfl
  | cons p t ih =>
    have ht : findLast t k = none :=
      ih fun p' hp' => h p' (List.mem_cons_of_mem _ hp')
    have hp : p.1 ≠ k := h p (List.mem_cons_self _ _)
    have hk : ¬k = p.1 := fun hk => hp hk.symm
    simp [findLast, ht, hk]

lemma getD_mem_of_lt {α : Type} :
    ∀ (l : List α) (i : Nat) (d : α), i < l.length → l.getD i d ∈ l := by
  intro l
  induction l with
  | nil => intro i d hi; simp at hi
  | cons x l ih =>
    intro i d hi
    cases i with
    | zero => simp
    | succ i =>
      have : i < l.length := by simpa using hi
      simpa using Or.inr (ih i d this)

lemma exists_getD_eq_of_mem {α : Type} :
    ∀ (l : List α) (x : α) (d : α), x ∈ l →
      ∃ j, j < l.length ∧ l.getD j d = x := by
  intro l
  induction l with
  | nil => intro x d hx; simp at hx
  | cons y l ih =>
    intro x d hx
    rcases List.mem_cons.mp hx with hx | hx
    · exact ⟨0, by simp, by simp [hx.symm]⟩
    · obtain ⟨j, hj, hjx⟩ := ih x d hx
      exact ⟨j + 1, by simp; omega, by simpa using hjx⟩

/-- If index `i` is the last occurrence of its symbol in the batch, the
batch's record list resolves that symbol to the records at index `i`. -/
lemma findLast_mkRecords_last :
    ∀ (ss : List String) (rs ts qs : List Nat) (i : Nat), i < ss.length →
      rs.length = ss.length → ts.length = ss.length →
      qs.length = ss.length →
      (∀ j, j < ss.length → i < j → ss.getD j "" ≠ ss.getD i "") →
      findLast (mkRecords ss rs ts qs) (ss.getD i "")
        = some ⟨rs.getD i 0, ts.getD i 0, qs.getD i 0⟩ := by
  intro ss
  induction ss with
  | nil => intro rs ts qs i hi; simp at hi
  | cons s ss ih =>
    intro rs ts qs i hi hr ht hq hlast
    cases rs with
    | nil => simp at hr
    | cons r rs =>
      cases ts with
      | nil => simp at ht
      | cons t ts =>
        cases qs with
        | nil => simp at hq
        | cons q qs =>
          simp only [List.length_cons, Nat.add_right_cancel_iff] at hr ht hq
          cases i with
          | zero =>
            have hnone : findLast (mkRecords ss rs ts qs) s = none := by
              apply findLast_eq_none
              intro p hp hps
              have hmem : p.1 ∈ ss := fst_mem_of_mem_mkRecords ss rs ts qs p hp
              obtain ⟨j, hj, hjs⟩ := exists_getD_eq_of_mem ss p.1 "" hmem
              have := hlast (j + 1) (by simp; omega) (by omega)
              simp only [List.getD_cons_succ, List.getD_cons_zero] at this
              exact this (hjs.trans hps)
            simp [mkRecords, findLast, hnone]
          | succ i =>
            have hi' : i < ss.length := by simpa using hi
            have hlast' : ∀ j, j < ss.length → i < j →
                ss.getD j "" ≠ ss.getD i "" := by
              intro j hj hij
              have := hlast (j + 1) (by simp; omega) (by omega)
              simpa using this
            have := ih rs ts qs i hi' hr ht hq hlast'
            simp only [mkRecords, findLast, List.getD_cons_succ]
            rw [this]

/-- Both floor divisions of a reciprocal cross-rate pair lose less than one
unit each, so the product of `a*c/b` and `b*c/a` is at most `c*c` and
within `x + y + 1` below it. -/
lemma div_mul_div_bounds (a b c : Nat) (ha : 0 < a) (hb : 0 < b) :
    (a * c / b) * (b * c / a) ≤ c * c ∧
      c * c < ((a * c / b) + 1) * ((b * c / a) + 1) := by
  constructor
  · have h1 : (a * c / b) * b ≤ a * c := Nat.div_mul_le_self _ _
    have h2 : (b * c / a) * a ≤ b * c := Nat.div_mul_le_self _ _
    have h3 : ((a * c / b) * (b * c / a)) * (b * a) ≤ (c * c) * (b * a) := by
      calc (a * c / b) * (b * c / a) * (b * a)
          = ((a * c / b) * b) * ((b * c / a) * a) := by ring
        _ ≤ (a * c) * (b * c) := Nat.mul_le_mul h1 h2
        _ = (c * c) * (b * a) := by ring
    exact Nat.le_of_mul_le_mul_right h3 (by positivity)
  · have h1 : a * c < ((a * c / b) + 1) * b := by
      calc a * c < (a * c) / b * b + b := Nat.lt_div_mul_add hb
        _ = ((a * c / b) + 1) * b := by ring
    have h2 : b * c < ((b * c / a) + 1) * a := by
      calc b * c < (b * c) / a * a + a := Nat.lt_div_mul_add ha
        _ = ((b * c / a) + 1) * a := by ring
    have h3 : (c * c) * (b * a) <
        (((a * c / b) + 1) * ((b * c / a) + 1)) * (b * a) := by
      calc (c * c) * (b * a) = (a * c) * (b * c) := by ring
        _ < (((a * c / b) + 1) * b) * (((b * c / a) + 1) * a) :=
            Nat.mul_lt_mul'' h1 h2
        _ = (((a * c / b) + 1) * ((b * c / a) + 1)) * (b * a) := by ring
    exact Nat.lt_of_mul_lt_mul_right h3

/-- A valid batch (all lengths equal) passes the length check and rewrites
the store with the insert loop. -/
lemma update_refs_eq_of_lengths (s : State) (ss : List String)
    (rs ts qs : List Nat) (hr : rs.length = ss.length)
    (ht : ts.length = ss.length) (hq : qs.length = ss.length) :
    update_refs s ss rs ts qs =
      ({ refs := insertAll s.refs (mkRecords ss rs ts qs) }, .ok ()) := by
  have hcond : ¬(rs.length ≠ ss.length ∨ qs.length ≠ ss.length ∨
      ts.length ≠ ss.length) := by omega
  simp [update_refs, hcond]

/-- C1: whenever both resolutions succeed and the quote rate is non-zero,
`get_reference_data` returns `rate = base.rate * 10^18 / quote.rate`
computed in unbounded `Nat` arithmetic with truncating division, together
with each side's `last_update`; and in the concrete scenario (batch
`["MATIC"], [112], [1625108298000000000], [124]` on the empty store,
queried at block time `1571797419879305533` with base `"USD"` and quote
`"MATIC"`) it returns rate `8928571428571428571428571`,
`last_updated_base = 1571797419879305533`,
`last_updated_quote = 1625108298000000000`. -/
theorem c1_cross_rate_formula (s : State) (t : Nat) (base quote : String)
    (b q : RefDataResponse)
    (hb : get_ref_data s t base = .ok b)
    (hq : get_ref_data s t quote = .ok q)
    (h0 : q.rate ≠ 0) :
    query s t (.GetReferenceData base quote)
      = .ok (.refData { rate := b.rate * 10 ^ 18 / q.rate,
                        last_updated_base := b.last_update,
                        last_updated_quote := q.last_update })
    ∧ query matic_store 1571797419879305533 (.GetReferenceData "USD" "MATIC")
      = .ok (.refData { rate := 8928571428571428571428571,
                        last_updated_base := 1571797419879305533,
                        last_updated_quote := 1625108298000000000 }) := by
  constructor
  · simp [query, hb, hq, h0]
  · rfl

/-- Witness for C1: the concrete scenario, obtained by applying
`c1_cross_rate_formula` at the scenario's store and symbols. -/
theorem c1_cross_rate_formula_witness :
    query matic_store 1571797419879305533 (.GetReferenceData "USD" "MATIC")
      = .ok (.refData { rate := 8928571428571428571428571,
                        last_updated_base := 1571797419879305533,
                        last_updated_quote := 1625108298000000000 }) :=
  (c1_cross_rate_formula matic_store 1571797419879305533 "USD" "MATIC"
    { rate := 10 ^ 9, last_update := 1571797419879305533 }
    { rate := 112, last_update := 1625108298000000000 }
    rfl rfl (by norm_num)).2

/-- C2: a batch whose four arrays do not all have equal length fails with
the length-mismatch error (`ContractError::DifferentArrayLength` in the
source, called `MismatchedBatchLength` by the spec) and leaves the storage
exactly as it was: the check precedes any load or write. -/
theorem c2_mismatched_lengths (s : State) (ss : List String)
    (rs ts qs : List Nat)
    (h : ¬(rs.length = ss.length ∧ ts.length = ss.length ∧
        qs.length = ss.length)) :
    update_refs s ss rs ts qs = (s, .error .DifferentArrayLength) := by
  have hcond : rs.length ≠ ss.length ∨ qs.length ≠ ss.length ∨
      ts.length ≠ ss.length := by omega
  simp only [update_refs]
  rw [if_pos hcond]

/-- Witness for C2 at a concrete mismatched batch. -/
theorem c2_mismatched_lengths_witness :
    update_refs instantiate ["A"] [] [] []
      = (instantiate, .error .DifferentArrayLength) :=
  c2_mismatched_lengths instantiate ["A"] [] [] [] (by decide)

/-- C3: resolving `"USD"` at any store state and any caller-supplied time
`t` succeeds with the fixed pair `rate = 10^9`, `last_update = t`; the
store `s` is arbitrary (nothing is read from it, even when a record keyed
`"USD"` has been inserted). -/
theorem c3_resolve_usd (s : State) (t : Nat) :
    get_ref_data s t "USD" = .ok { rate := 10 ^ 9, last_update := t } := by
  simp [get_ref_data]

/-- C4 (code bug evaluation): on a symbol absent from the store the source
does not return a recoverable `UnknownSymbol` error — it `.unwrap()`s the
`HashMap` lookup and panics (`trap`), both in `get_ref_data` and through
the `GetReferenceData` query. -/
theorem c4_unknown_symbol_traps :
    get_ref_data instantiate 0 "ETH" = .trap ∧
    query instantiate 0 (.GetReferenceData "ETH" "USD") = .trap :=
  ⟨rfl, rfl⟩

/-- C5 (code bug evaluation): when the quote side resolves successfully to
rate `0`, the source has no `DivisionByZero` guard: the `BigUint` division
panics (`trap`) instead of returning an error value. -/
theorem c5_zero_quote_rate_traps :
    get_ref_data zero_rate_store 5 "ZRO" = .ok { rate := 0, last_update := 1 } ∧
    query zero_rate_store 5 (.GetReferenceData "USD" "ZRO") = .trap :=
  ⟨rfl, rfl⟩

/-- C6: a batch whose four arrays have equal length succeeds, and
afterwards every submitted symbol reads back exactly the submitted
`(rate, resolve_time, request_id)` triple at its last index (so the prior
record of an overwritten symbol is discarded entirely), while every symbol
not in the batch is unchanged. -/
theorem c6_apply_batch_readback (s : State) (ss : List String)
    (rs ts qs : List Nat) (hr : rs.length = ss.length)
    (ht : ts.length = ss.length) (hq : qs.length = ss.length) :
    (update_refs s ss rs ts qs).2 = Except.ok () ∧
    (∀ i, i < ss.length →
      (∀ j, j < ss.length → i < j → ss.getD j "" ≠ ss.getD i "") →
      ((update_refs s ss rs ts qs).1).refs (ss.getD i "")
        = some { rate := rs.getD i 0, resolve_time := ts.getD i 0,
                 request_id := qs.getD i 0 }) ∧
    (∀ sym, sym ∉ ss →
      ((update_refs s ss rs ts qs).1).refs sym = s.refs sym) := by
  rw [update_refs_eq_of_lengths s ss rs ts qs hr ht hq]
  refine ⟨rfl, ?_, ?_⟩
  · intro i hi hlast
    show insertAll s.refs (mkRecords ss rs ts qs) (ss.getD i "") = _
    rw [insertAll_lookup, findLast_mkRecords_last ss rs ts qs i hi hr ht hq hlast]
  · intro sym hsym
    have hnone : findLast (mkRecords ss rs ts qs) sym = none := by
      apply findLast_eq_none
      intro p hp hps
      exact hsym (hps ▸ fst_mem_of_mem_mkRecords ss rs ts qs p hp)
    show insertAll s.refs (mkRecords ss rs ts qs) sym = s.refs sym
    rw [insertAll_lookup, hnone]

/-- Witness for C6 at a concrete one-element batch. -/
theorem c6_apply_batch_readback_witness :
    ((update_refs instantiate ["ETH"] [1] [2] [3]).1).refs "ETH"
      = some { rate := 1, resolve_time := 2, request_id := 3 } :=
  (c6_apply_batch_readback instantiate ["ETH"] [1] [2] [3] rfl rfl rfl).2.1 0
    (by decide) (fun j hj hij => by simp at hj; omega)

/-- C7: for a symbol other than `"USD"` whose stored record has
`resolve_time = 0`, resolution fails with `RefDataNotAvailable`; with
`resolve_time > 0` it succeeds returning the record's rate and
resolve time. -/
theorem c7_resolve_nonusd (s : State) (t : Nat) (sym : String) (rd : RefData)
    (hUSD : sym ≠ "USD") (hlook : s.refs sym = some rd) :
    (rd.resolve_time = 0 →
      get_ref_data s t sym = .err .RefDataNotAvailable) ∧
    (0 < rd.resolve_time →
      get_ref_data s t sym
        = .ok { rate := rd.rate, last_update := rd.resolve_time }) := by
  constructor
  · intro h0
    simp [get_ref_data, hUSD, hlook, h0]
  · intro hpos
    have hne : ¬rd.resolve_time ≤ 0 := by omega
    simp [get_ref_data, hUSD, hlook, hne]

/-- Witness for C7: a stored record with `resolve_time = 0` yields
`RefDataNotAvailable`. -/
theorem c7_resolve_nonusd_witness :
    get_ref_data unresolved_store 3 "ETH" = .err .RefDataNotAvailable :=
  (c7_resolve_nonusd unresolved_store 3 "ETH"
    { rate := 5, resolve_time := 0, request_id := 9 } (by decide) rfl).1 rfl

/-- C8: later writes to the same symbol win.  Within one batch, the stored
record of a symbol is the one `findLast` selects, i.e. the occurrence at
the highest index; and across two successive batches the second batch's
record for a symbol it contains fully replaces whatever the first batch
(or any prior store) held, with no field merging. -/
theorem c8_last_write_wins :
    (∀ (s : State) (ss : List String) (rs ts qs : List Nat),
      rs.length = ss.length → ts.length = ss.length → qs.length = ss.length →
      ∀ sym v, findLast (mkRecords ss rs ts qs) sym = some v →
        ((update_refs s ss rs ts qs).1).refs sym = some v) ∧
    (∀ (s : State) (ss1 : List String) (rs1 ts1 qs1 : List Nat)
        (ss2 : List String) (rs2 ts2 qs2 : List Nat),
      rs1.length = ss1.length → ts1.length = ss1.length →
      qs1.length = ss1.length →
      rs2.length = ss2.length → ts2.length = ss2.length →
      qs2.length = ss2.length →
      ∀ sym v, findLast (mkRecords ss2 rs2 ts2 qs2) sym = some v →
        ((update_refs (update_refs s ss1 rs1 ts1 qs1).1
            ss2 rs2 ts2 qs2).1).refs sym = some v) := by
  constructor
  · intro s ss rs ts qs hr ht hq sym v hv
    rw [update_refs_eq_of_lengths s ss rs ts qs hr ht hq]
    show insertAll s.refs (mkRecords ss rs ts qs) sym = some v
    rw [insertAll_lookup, hv]
  · intro s ss1 rs1 ts1 qs1 ss2 rs2 ts2 qs2 h1 h2 h3 h4 h5 h6 sym v hv
    rw [update_refs_eq_of_lengths _ ss2 rs2 ts2 qs2 h4 h5 h6]
    show insertAll ((update_refs s ss1 rs1 ts1 qs1).1).refs
      (mkRecords ss2 rs2 ts2 qs2) sym = some v
    rw [insertAll_lookup, hv]

/-- Witness for C8: a duplicate-symbol batch stores the record at the last
index. -/
theorem c8_last_write_wins_witness :
    ((update_refs instantiate ["DUP", "DUP"] [1, 2] [3, 4] [5, 6]).1).refs "DUP"
      = some { rate := 2, resolve_time := 4, request_id := 6 } :=
  c8_last_write_wins.1 instantiate ["DUP", "DUP"] [1, 2] [3, 4] [5, 6]
    rfl rfl rfl "DUP" { rate := 2, resolve_time := 4, request_id := 6 } rfl

/-- C9: when both directions of a pair resolve successfully with non-zero
rates, the two cross-rates multiply to `10^36` up to the loss of the two
truncating divisions: the product is at most `10^36` and exceeds
`10^36 - (rAB + rBA + 1)`. -/
theorem c9_reciprocal_product (s : State) (t : Nat) (A B : String)
    (a la b lb : Nat)
    (hA : get_ref_data s t A = .ok { rate := a, last_update := la })
    (hB : get_ref_data s t B = .ok { rate := b, last_update := lb })
    (ha : a ≠ 0) (hb : b ≠ 0) :
    ∃ rAB rBA : Nat,
      query s t (.GetReferenceData A B)
        = .ok (.refData { rate := rAB, last_updated_base := la,
                          last_updated_quote := lb }) ∧
      query s t (.GetReferenceData B A)
        = .ok (.refData { rate := rBA, last_updated_base := lb,
                          last_updated_quote := la }) ∧
      rAB * rBA ≤ 10 ^ 36 ∧ 10 ^ 36 < rAB * rBA + rAB + rBA + 1 := by
  refine ⟨a * 10 ^ 18 / b, b * 10 ^ 18 / a, ?_, ?_, ?_, ?_⟩
  · simp [query, hA, hB, hb]
  · simp [query, hA, hB, ha]
  · have h1 := (div_mul_div_bounds a b (10 ^ 18)
      (Nat.pos_of_ne_zero ha) (Nat.pos_of_ne_zero hb)).1
    calc (a * 10 ^ 18 / b) * (b * 10 ^ 18 / a)
        ≤ 10 ^ 18 * 10 ^ 18 := h1
      _ = 10 ^ 36 := by norm_num
  · have h2 := (div_mul_div_bounds a b (10 ^ 18)
      (Nat.pos_of_ne_zero ha) (Nat.pos_of_ne_zero hb)).2
    calc (10 : Nat) ^ 36 = 10 ^ 18 * 10 ^ 18 := by norm_num
      _ < ((a * 10 ^ 18 / b) + 1) * ((b * 10 ^ 18 / a) + 1) := h2
      _ = (a * 10 ^ 18 / b) * (b * 10 ^ 18 / a)
            + (a * 10 ^ 18 / b) + (b * 10 ^ 18 / a) + 1 := by ring

/-- Witness for C9 at the concrete scenario store, in the USD/MATIC pair. -/
theorem c9_reciprocal_product_witness :
    ∃ rAB rBA : Nat,
      query matic_store 5 (.GetReferenceData "USD" "MATIC")
        = .ok (.refData { rate := rAB, last_updated_base := 5,
                          last_updated_quote := 1625108298000000000 }) ∧
      query matic_store 5 (.GetReferenceData "MATIC" "USD")
        = .ok (.refData { rate := rBA, last_updated_base := 1625108298000000000,
                          last_updated_quote := 5 }) ∧
      rAB * rBA ≤ 10 ^ 36 ∧ 10 ^ 36 < rAB * rBA + rAB + rBA + 1 :=
  c9_reciprocal_product matic_store 5 "USD" "MATIC" (10 ^ 9) 5
    112 1625108298000000000 rfl rfl (by norm_num) (by norm_num)

/-- C10: the empty batch passes the length check, inserts nothing, and
saves the loaded state back: the call succeeds and the store is exactly
what it was. -/
theorem c10_empty_batch (s : State) :
    update_refs s [] [] [] [] = (s, Except.ok ()) := rfl

end StdReference
